import Mathlib

/-!
Verification of the ipisp library (whois netcat client and DNS client) against its
specification.  The Go sources are embedded shallowly: strings are Lean `String`s
(operated on through their character lists so that everything reduces in the kernel),
byte slices (`net.IP`) are `List Nat`, the scanner's line source is a `List String`,
and `net.LookupTXT` is an explicit oracle argument.  Go standard-library helpers
(`bytes.Split`, `bytes.TrimSpace`, `bytes.TrimLeft`, `strconv.Atoi`,
`time.Parse "2006-01-02"`, `net.ParseIP`, `net.ParseCIDR`) are modelled by the
structural functions below; the repository's value types that live outside the
embedded files (Country, Name, ASN formatting) are modelled from the spec and are
marked as such.  The request-write phase of the session client is not modelled: the
claims under study are about response processing, and the response lines are given
directly as input.
-/

/-- Models Go `unicode.IsSpace` restricted to the ASCII white space characters
(sufficient for the pipe-delimited protocol lines). -/
def isGoSpace (c : Char) : Bool :=
  c == ' ' || c == '\t' || c == '\n' || c == '\x0b' || c == '\x0c' || c == '\r'

/-- Models `bytes.TrimSpace`: drop white space from both ends. -/
def goTrim (s : String) : String :=
  String.mk (((s.data.dropWhile isGoSpace).reverse.dropWhile isGoSpace).reverse)

/-- Split a character list at every occurrence of `sep` (Go `bytes.Split` with a
one-byte separator: the empty input yields one empty piece). -/
def splitSep (sep : Char) : List Char → List (List Char)
  | [] => [[]]
  | c :: cs =>
    let r := splitSep sep cs
    if c == sep then [] :: r
    else
      match r with
      | h :: t => (c :: h) :: t
      | [] => [[c]]

/-- Models `bytes.Split(s, sep)` for a one-byte separator. -/
def goSplit (s : String) (sep : Char) : List String :=
  (splitSep sep s.data).map String.mk

/-- Does the first list start with the second one? -/
def listStarts [BEq α] : List α → List α → Bool
  | _, [] => true
  | [], _ :: _ => false
  | a :: as, b :: bs => a == b && listStarts as bs

/-- Models `bytes.HasPrefix`. -/
def goStartsWith (s marker : String) : Bool :=
  listStarts s.data marker.data

/-- Models `bytes.TrimLeft(s, cutset)`: drop the leading characters that occur
anywhere in `cutset` (a character set, not a prefix). -/
def goTrimLeft (s cutset : String) : String :=
  String.mk (s.data.dropWhile (fun c => cutset.data.contains c))

/-- Accumulate decimal digits; fails on the first non-digit. -/
def decDigitsAux : List Char → Nat → Option Nat
  | [], acc => some acc
  | c :: cs, acc =>
    if c.isDigit then decDigitsAux cs (acc * 10 + (c.toNat - 48)) else none

/-- Parse a non-empty all-digit string. -/
def decNat (s : String) : Option Nat :=
  match s.data with
  | [] => none
  | cs => decDigitsAux cs 0

/-- Models `strconv.Atoi`: an optional sign followed by at least one digit
(the int64 range check is immaterial here and not modelled). -/
def atoi (s : String) : Option Int :=
  match s.data with
  | '-' :: rest =>
    if rest.isEmpty then none
    else (decDigitsAux rest 0).map (fun n => -(n : Int))
  | '+' :: rest =>
    if rest.isEmpty then none
    else (decDigitsAux rest 0).map (fun n => (n : Int))
  | _ => (decNat s).map (fun n => (n : Int))

def allDigits (cs : List Char) : Bool := cs.all Char.isDigit

/-- Is `s` a decimal number within `[lo, hi]`? -/
def inRange (s : String) (lo hi : Nat) : Bool :=
  match decNat s with
  | none => false
  | some v => decide (lo ≤ v) && decide (v ≤ hi)

/-- Models `time.Parse("2006-01-02", s)` as a recognizer: four digit year, two
digit month `01..12`, two digit day `01..31` (per-month day counts are not
modelled; no claim depends on them).  The parsed time is carried as the text. -/
def parseDate (s : String) : Option String :=
  match goSplit s '-' with
  | [y, m, d] =>
    if allDigits y.data && (y.data.length == 4)
        && allDigits m.data && (m.data.length == 2) && inRange m 1 12
        && allDigits d.data && (d.data.length == 2) && inRange d 1 31
    then some s else none
  | _ => none

/-- A decimal IPv4 octet: one to three digits, value at most 255. -/
def isOctet (s : String) : Bool :=
  !s.data.isEmpty && allDigits s.data && decide (s.data.length ≤ 3)
    && decide ((decNat s).getD 256 ≤ 255)

/-- Models `net.ParseCIDR` restricted to IPv4 dotted-quad text (the only shape
the upstream service emits): the stored `*net.IPNet` is carried as the text,
since no claim observes the masked network value. -/
def parseCIDR (s : String) : Option String :=
  match goSplit s '/' with
  | [ipPart, maskPart] =>
    match goSplit ipPart '.' with
    | [a, b, c, d] =>
      if isOctet a && isOctet b && isOctet c && isOctet d
          && !maskPart.data.isEmpty && allDigits maskPart.data
          && decide ((decNat maskPart).getD 33 ≤ 32)
      then some s else none
    | _ => none
  | _ => none

/-- Models `net.ParseIP` restricted to IPv4 dotted-quad text; like `net.ParseIP`
it returns the 16-byte (IPv4-in-IPv6) form; unparsable text yields `none` (nil). -/
def parseIP (s : String) : Option (List Nat) :=
  match goSplit s '.' with
  | [a, b, c, d] =>
    if isOctet a && isOctet b && isOctet c && isOctet d then
      some [0, 0, 0, 0, 0, 0, 0, 0, 0, 0, 255, 255,
            (decNat a).getD 0, (decNat b).getD 0, (decNat c).getD 0, (decNat d).getD 0]
    else none
  | _ => none

/-- Modelled from the spec: the country collaborator's value type, an ISO code
plus name pair (`ipisp.Country` lives outside the embedded files). -/
structure Country where
  code : String
  name : String
deriving Repr, DecidableEq

/-- The Go zero value of `Country` (what `NewCountryFromCode` leaves behind on
failure and what a zeroed `Response` carries). -/
def defaultCountry : Country := { code := "", name := "" }

/-- Modelled from the spec: `NewCountryFromCode` resolves a code to a country and
fails on malformed codes.  It is kept abstract as a function parameter so that
theorems quantify over every behavior of the collaborator. -/
abbrev CC := String → Option Country

/-- Modelled from the spec: `NewName` wraps the organization/AS name string. -/
def NewName (s : String) : String := s

/-- The `ipisp.Response` record. `ip` and `range` model the nilable `net.IP` and
`*net.IPNet` fields; `allocated` models `time.Time` with the zero value as `none`. -/
structure Response where
  asn : Int
  ip : Option (List Nat)
  range : Option String
  country : Country
  registry : String
  allocated : Option String
  name : String
deriving Repr, DecidableEq

/-- The Go zero value `Response{}`. -/
def zeroResponse : Response :=
  { asn := 0, ip := none, range := none, country := defaultCountry,
    registry := "", allocated := none, name := "" }

/-- The error values the whois client can return: `ErrUnexpectedTokens`, the
`strconv.Atoi` and `net.ParseCIDR` failures (carrying the offending token), and
the upstream error line (carrying the extracted message). -/
inductive WhoisErr where
  | upstream (msg : String)
  | unexpectedTokens
  | asnParse (tok : String)
  | rangeParse (tok : String)
deriving Repr, DecidableEq

/-- The service's error-line marker. -/
def errMarker : String := "Error: "

/-- The `i`-th pipe-delimited token of a response line, trimmed of white space
(Go splits once and trims every token; trimming per access is the same). -/
def lineTok (raw : String) (i : Nat) : String :=
  goTrim ((goSplit raw '|').getD i "")

/-- One address-mode line of `whoisClient.LookupIPs` (part_000 lines 106-143):
7 tokens, strict ASN and CIDR, unchecked `net.ParseIP`, ignored country and date
errors. -/
def whoisParseIPLine (cc : CC) (raw : String) : Except WhoisErr Response :=
  if (goSplit raw '|').length ≠ 7 then .error .unexpectedTokens
  else
    match atoi (lineTok raw 0) with
    | none => .error (.asnParse (lineTok raw 0))
    | some a =>
      match parseCIDR (lineTok raw 2) with
      | none => .error (.rangeParse (lineTok raw 2))
      | some rg =>
        .ok { asn := a, ip := parseIP (lineTok raw 1), range := some rg,
              country := (cc (lineTok raw 3)).getD defaultCountry,
              registry := lineTok raw 4,
              allocated := parseDate (lineTok raw 5),
              name := NewName (lineTok raw 6) }

/-- One ASN-mode line of `whoisClient.LookupASNs` (part_000 lines 190-219):
5 tokens, strict ASN, ignored country and date errors; IP and Range stay zero. -/
def whoisParseASNLine (cc : CC) (raw : String) : Except WhoisErr Response :=
  if (goSplit raw '|').length ≠ 5 then .error .unexpectedTokens
  else
    match atoi (lineTok raw 0) with
    | none => .error (.asnParse (lineTok raw 0))
    | some a =>
      .ok { asn := a, ip := none, range := none,
            country := (cc (lineTok raw 1)).getD defaultCountry,
            registry := lineTok raw 2,
            allocated := parseDate (lineTok raw 3),
            name := NewName (lineTok raw 4) }

/-- The shared read loop of `whoisClient.LookupIPs`/`LookupASNs` (part_000 lines
100-151 and 185-227): scan lines until the input list (the connection) is
exhausted or `cap` records have been parsed; an `Error: ` line aborts with the
cut-set-trimmed message; a bad line aborts with its parse error.  (`cap` is the
input count; Go's `len(resp) == cap(resp)` check coincides with it for
non-empty input batches.) -/
def whoisLoop (parseLine : String → Except WhoisErr Response) (cap : Nat) :
    List String → List Response → List Response × Option WhoisErr
  | [], resp => (resp, none)
  | raw :: rest, resp =>
    if goStartsWith raw errMarker then
      (resp, some (.upstream (goTrim (goTrimLeft raw errMarker))))
    else
      match parseLine raw with
      | .error e => (resp, some e)
      | .ok re =>
        let resp2 := resp ++ [re]
        if resp2.length = cap then (resp2, none)
        else whoisLoop parseLine cap rest resp2

/-- `whoisClient.LookupIPs` for a batch of `n` addresses whose connection yields
`lines`. -/
def whoisLookupIPs (cc : CC) (n : Nat) (lines : List String) :
    List Response × Option WhoisErr :=
  whoisLoop (whoisParseIPLine cc) n lines []

/-- `whoisClient.LookupASNs` for a batch of `n` ASNs whose connection yields
`lines`. -/
def whoisLookupASNs (cc : CC) (n : Nat) (lines : List String) :
    List Response × Option WhoisErr :=
  whoisLoop (whoisParseASNLine cc) n lines []

/-- `whoisClient.LookupIP` (part_000 lines 155-161): one-element batch, with an
explicit empty-result check before taking the first record. -/
def whoisLookupIP (cc : CC) (lines : List String) :
    Option Response × Option WhoisErr :=
  let r := whoisLookupIPs cc 1 lines
  if r.1.length = 0 then (none, r.2) else (r.1.head?, r.2)

/-- `whoisClient.LookupASN` (part_000 lines 231-234): takes `&resp[0]` with no
empty-result check; the `none` result models the index-out-of-range panic. -/
def whoisLookupASN (cc : CC) (lines : List String) :
    Option (Response × Option WhoisErr) :=
  let r := whoisLookupASNs cc 1 lines
  match r.1.head? with
  | none => none
  | some re => some (re, r.2)

/-- The hexadecimal digit table `hexDigit` of dnsclient.go, as characters. -/
def hexDigits : List Char := "0123456789abcdef".data

/-- Models `net.IP.To4`: the 4-byte form of an IPv4 address (either already
4 bytes long, or 16 bytes in the IPv4-mapped shape), else nil (`[]`). -/
def to4 (ip : List Nat) : List Nat :=
  if ip.length = 4 then ip
  else if ip.length = 16 && (ip.take 10).all (fun b => b == 0)
          && (ip.getD 10 0 == 255) && (ip.getD 11 0 == 255) then ip.drop 12
  else []

/-- The error of `dnsClient.getLookupName` for a length that is neither 4 nor 16. -/
inductive NameErr where
  | invalidLength (n : Nat)
deriving Repr, DecidableEq

/-- One inner pass of the IPv6 encoding loop of `getLookupName` (dnsclient.go
lines 158-163): for the 16-bit word `(b2 << 8) | b3`, emit the four hex nibbles
from least significant to most significant, each followed by the separator. -/
def v6WordChunk (b2 b3 : Nat) : List Char :=
  ((List.range 4).map (fun j =>
    [hexDigits.getD ((((b2 <<< 8) ||| b3) >>> (4 * j)) &&& 15) '0', '.'])).flatten

/-- The 64 bytes built by the IPv6 loop of `getLookupName`: words taken from the
end of the address towards the front (`i = 16` down to `2`). -/
def v6Bytes (ip : List Nat) : List Char :=
  ((List.range 8).map (fun k =>
    v6WordChunk (ip.getD (14 - 2 * k) 0) (ip.getD (15 - 2 * k) 0))).flatten

/-- `dnsClient.getLookupName` (dnsclient.go lines 148-166).  The result models
the Go `(string, error)` pair; `none` models the index-out-of-range panic of the
IPv4 branch, which reads `ip[15], ip[14], ip[13], ip[12]` from the ORIGINAL
slice after only checking that `To4()` has length 4. -/
def getLookupName (ip : List Nat) : Option (String × Option NameErr) :=
  if (to4 ip).length = 4 then
    match ip.get? 15, ip.get? 14, ip.get? 13, ip.get? 12 with
    | some b15, some b14, some b13, some b12 =>
      some (toString b15 ++ "." ++ toString b14 ++ "." ++ toString b13 ++ "."
            ++ toString b12 ++ ".origin.asn.cymru.com", none)
    | _, _, _, _ => none
  else if ip.length ≠ 16 then some ("", some (.invalidLength ip.length))
  else some (((v6Bytes ip).take 63).asString ++ ".origin6.asn.cymru.com", none)

/-- Models `net.LookupTXT`: a DNS oracle mapping a name to TXT strings or an error. -/
abbrev TxtOracle := String → Except String (List String)

/-- The error values of the DNS client; messages are modelled structurally
(`chainedASN` wraps the failure of the secondary name lookup). -/
inductive DnsErr where
  | txt (msg : String)
  | unrecognized (txt : String)
  | unrecognizedAS (txt : String)
  | asnParse (tok : String)
  | countryParse (tok : String)
  | rangeParse (tok : String)
  | dateParse (tok : String)
  | chainedASN (a : Int) (e : DnsErr)
  | noRecords
deriving Repr, DecidableEq

/-- The TXT-record processing of `dnsClient.LookupASN` (dnsclient.go lines
111-139): only the first record is examined (every path in the Go loop body
returns); 5 tokens; the asn token `values[0]` is ignored — the record carries the
QUERIED asn; strict country; empty date tolerated, malformed date fatal. -/
def dnsASNFromTxts (cc : CC) (asn : Int) : List String → Except DnsErr Response
  | [] => .error .noRecords
  | txt :: _ =>
    if (goSplit txt '|').length ≠ 5 then .error (.unrecognizedAS txt)
    else
      match cc (lineTok txt 1) with
      | none => .error (.countryParse (lineTok txt 1))
      | some ctry =>
        if lineTok txt 3 ≠ "" then
          match parseDate (lineTok txt 3) with
          | none => .error (.dateParse (lineTok txt 3))
          | some d =>
            .ok { asn := asn, ip := none, range := none, country := ctry,
                  registry := lineTok txt 2, allocated := some d,
                  name := NewName (lineTok txt 4) }
        else
          .ok { asn := asn, ip := none, range := none, country := ctry,
                registry := lineTok txt 2, allocated := none,
                name := NewName (lineTok txt 4) }

/-- `dnsClient.LookupASN` (dnsclient.go lines 104-141).  The queried zone name
uses the literal decimal ASN (modelled from the spec: ASN display formatting
lives outside the embedded files). -/
def dnsLookupASN (cc : CC) (oracle : TxtOracle) (asn : Int) :
    Except DnsErr Response :=
  match oracle (toString asn ++ ".asn.cymru.com") with
  | .error e => .error (.txt e)
  | .ok txts => dnsASNFromTxts cc asn txts

/-- The TXT-record processing of `dnsClient.LookupIP` (dnsclient.go lines
40-87): only the first record matters; 5 tokens (asn, CIDR, country, registry,
date); strict asn, country, range and non-empty date; then the chained ASN-mode
lookup for the organization name. -/
def dnsIPFromTxts (cc : CC) (oracle : TxtOracle) (ip : List Nat) :
    List String → Except DnsErr Response
  | [] => .error .noRecords
  | txt :: _ =>
    if (goSplit txt '|').length ≠ 5 then .error (.unrecognized txt)
    else
      match atoi (lineTok txt 0) with
      | none => .error (.asnParse (lineTok txt 0))
      | some a =>
        match cc (lineTok txt 2) with
        | none => .error (.countryParse (lineTok txt 2))
        | some ctry =>
          match parseCIDR (lineTok txt 1) with
          | none => .error (.rangeParse (lineTok txt 1))
          | some rg =>
            let dateStep : Except DnsErr (Option String) :=
              if lineTok txt 4 ≠ "" then
                match parseDate (lineTok txt 4) with
                | none => .error (.dateParse (lineTok txt 4))
                | some d => .ok (some d)
              else .ok none
            match dateStep with
            | .error e => .error e
            | .ok alloc =>
              match dnsLookupASN cc oracle a with
              | .error e => .error (.chainedASN a e)
              | .ok asnResp =>
                .ok { asn := a, ip := some ip, range := some rg, country := ctry,
                      registry := lineTok txt 3, allocated := alloc,
                      name := asnResp.name }

/-- `dnsClient.LookupIP` (dnsclient.go lines 33-89).  Faithful to the source,
the error returned by `getLookupName` is DISCARDED (the `err` variable is
immediately reassigned by the `net.LookupTXT` call), so a bad-length address
still issues a TXT query, for the empty name.  `none` models the panic
propagated from `getLookupName`. -/
def dnsLookupIP (cc : CC) (oracle : TxtOracle) (ip : List Nat) :
    Option (Except DnsErr Response) :=
  match getLookupName ip with
  | none => none
  | some (lookupName, _) =>
    match oracle lookupName with
    | .error e => some (.error (.txt e))
    | .ok txts => some (dnsIPFromTxts cc oracle ip txts)

/-- The append loop of `dnsClient.LookupIPs`. -/
def dnsIPsFrom (cc : CC) (oracle : TxtOracle) :
    List (List Nat) → List Response → Option (List Response × Option DnsErr)
  | [], acc => some (acc, none)
  | ip :: rest, acc =>
    match dnsLookupIP cc oracle ip with
    | none => none
    | some (.error e) => some (acc, some e)
    | some (.ok r) => dnsIPsFrom cc oracle rest (acc ++ [r])

/-- `dnsClient.LookupIPs` (dnsclient.go lines 20-31): the result slice is
created as `make([]Response, len(ips))` — `len(ips)` ZERO records — and the
per-address results are APPENDED after them. -/
def dnsLookupIPs (cc : CC) (oracle : TxtOracle) (ips : List (List Nat)) :
    Option (List Response × Option DnsErr) :=
  dnsIPsFrom cc oracle ips (List.replicate ips.length zeroResponse)

/-- The append loop of `dnsClient.LookupASNs`. -/
def dnsASNsFrom (cc : CC) (oracle : TxtOracle) :
    List Int → List Response → List Response × Option DnsErr
  | [], acc => (acc, none)
  | a :: rest, acc =>
    match dnsLookupASN cc oracle a with
    | .error e => (acc, some e)
    | .ok r => dnsASNsFrom cc oracle rest (acc ++ [r])

/-- `dnsClient.LookupASNs` (dnsclient.go lines 92-103): same
`make([]Response, len(asns))` plus `append` pattern as `LookupIPs`. -/
def dnsLookupASNs (cc : CC) (oracle : TxtOracle) (asns : List Int) :
    List Response × Option DnsErr :=
  dnsASNsFrom cc oracle asns (List.replicate asns.length zeroResponse)

/-- Reference translation of the spec's 16-byte encoding rule (section 4.4),
word by word: each 16-bit word contributes its four hex nibbles from least
significant to most significant, each followed by a dot; the eight words are
concatenated from the least-significant word (final two bytes) to the
most-significant word (first two bytes); the single trailing separator is
dropped and the v6 zone suffix appended. -/
def specWordChunk (w : Nat) : List Char :=
  (([w % 16, w / 16 % 16, w / 256 % 16, w / 4096 % 16]).map
    (fun n => [hexDigits.getD n '0', '.'])).flatten

/-- Reference 16-byte reverse name following the spec's words (section 4.4). -/
def specV6Name (ip : List Nat) : String :=
  ((((List.range 8).map (fun k =>
      (ip.getD (14 - 2 * k) 0) * 256 + ip.getD (15 - 2 * k) 0)).map
    specWordChunk).flatten.dropLast).asString ++ ".origin6.asn.cymru.com"

/-- Modelled from the spec: a concrete country collaborator used for witnesses
(resolves only the code `US`). -/
def usCountry : Country := { code := "US", name := "United States" }

def cc0 : CC := fun s => if s = "US" then some usCountry else none

/-- A collaborator that fails on every code. -/
def ccNone : CC := fun _ => none

/-- The 16-byte (IPv4-mapped) form of 192.0.2.1, as `net.ParseIP` returns it. -/
def mapped16 : List Nat := [0, 0, 0, 0, 0, 0, 0, 0, 0, 0, 255, 255, 192, 0, 2, 1]

/-- The all-zero 16-byte address. -/
def zero16 : List Nat := List.replicate 16 0

/-- Structural validity of an address-mode session line: not an error line is
checked separately; 7 tokens, parsable asn token, parsable CIDR token. -/
def parsesIPLine (raw : String) : Bool :=
  ((goSplit raw '|').length == 7) && (atoi (lineTok raw 0)).isSome
    && (parseCIDR (lineTok raw 2)).isSome

def validIPLine (raw : String) : Bool :=
  !goStartsWith raw errMarker && parsesIPLine raw

/-- Structural validity of an ASN-mode session line: 5 tokens, parsable asn token. -/
def parsesASNLine (raw : String) : Bool :=
  ((goSplit raw '|').length == 5) && (atoi (lineTok raw 0)).isSome

def validASNLine (raw : String) : Bool :=
  !goStartsWith raw errMarker && parsesASNLine raw

/-- The record a structurally valid address-mode line parses to. -/
def okIPRecord (cc : CC) (raw : String) : Response :=
  (whoisParseIPLine cc raw).toOption.getD zeroResponse

/-- The record a structurally valid ASN-mode line parses to. -/
def okASNRecord (cc : CC) (raw : String) : Response :=
  (whoisParseASNLine cc raw).toOption.getD zeroResponse

theorem whoisParseIPLine_isOk (cc : CC) (raw : String) (h : parsesIPLine raw = true) :
    ∃ re, whoisParseIPLine cc raw = Except.ok re := by
  unfold parsesIPLine at h
  simp only [Bool.and_eq_true, beq_iff_eq] at h
  obtain ⟨⟨h7, hasn⟩, hcidr⟩ := h
  rw [Option.isSome_iff_exists] at hasn hcidr
  obtain ⟨a, ha⟩ := hasn
  obtain ⟨rg, hrg⟩ := hcidr
  refine ⟨{ asn := a, ip := parseIP (lineTok raw 1), range := some rg,
            country := (cc (lineTok raw 3)).getD defaultCountry,
            registry := lineTok raw 4, allocated := parseDate (lineTok raw 5),
            name := NewName (lineTok raw 6) }, ?_⟩
  unfold whoisParseIPLine
  rw [if_neg (by omega), ha, hrg]

theorem whoisParseASNLine_isOk (cc : CC) (raw : String) (h : parsesASNLine raw = true) :
    ∃ re, whoisParseASNLine cc raw = Except.ok re := by
  unfold parsesASNLine at h
  simp only [Bool.and_eq_true, beq_iff_eq] at h
  obtain ⟨h5, hasn⟩ := h
  rw [Option.isSome_iff_exists] at hasn
  obtain ⟨a, ha⟩ := hasn
  refine ⟨{ asn := a, ip := none, range := none,
            country := (cc (lineTok raw 1)).getD defaultCountry,
            registry := lineTok raw 2, allocated := parseDate (lineTok raw 3),
            name := NewName (lineTok raw 4) }, ?_⟩
  unfold whoisParseASNLine
  rw [if_neg (by omega), ha]

theorem okIPRecord_spec (cc : CC) (raw : String) (re : Response)
    (h : whoisParseIPLine cc raw = Except.ok re) : okIPRecord cc raw = re := by
  unfold okIPRecord
  rw [h]
  rfl

theorem okASNRecord_spec (cc : CC) (raw : String) (re : Response)
    (h : whoisParseASNLine cc raw = Except.ok re) : okASNRecord cc raw = re := by
  unfold okASNRecord
  rw [h]
  rfl

theorem validIPLine_split (cc : CC) (l : String) (h : validIPLine l = true) :
    goStartsWith l errMarker = false ∧ ∃ re, whoisParseIPLine cc l = Except.ok re := by
  unfold validIPLine at h
  simp only [Bool.and_eq_true, Bool.not_eq_eq_eq_not, Bool.not_true] at h
  exact ⟨h.1, whoisParseIPLine_isOk cc l h.2⟩

theorem validASNLine_split (cc : CC) (l : String) (h : validASNLine l = true) :
    goStartsWith l errMarker = false ∧ ∃ re, whoisParseASNLine cc l = Except.ok re := by
  unfold validASNLine at h
  simp only [Bool.and_eq_true, Bool.not_eq_eq_eq_not, Bool.not_true] at h
  exact ⟨h.1, whoisParseASNLine_isOk cc l h.2⟩

/-- Running the read loop over a prefix of lines that are all structurally valid
(and not error lines) appends their records and continues on the remainder, as
long as the accumulated count stays below the batch size. -/
theorem whoisLoop_consume (p : String → Except WhoisErr Response) (cap : Nat)
    (good : List String) :
    ∀ (rest : List String) (acc : List Response),
      (∀ l ∈ good, goStartsWith l errMarker = false ∧ ∃ re, p l = Except.ok re) →
      acc.length + good.length < cap →
      whoisLoop p cap (good ++ rest) acc
        = whoisLoop p cap rest
            (acc ++ good.map (fun l => (p l).toOption.getD zeroResponse)) := by
  induction good with
  | nil => intro rest acc _ _; simp
  | cons raw good ih =>
    intro rest acc hv hlen
    obtain ⟨hs, re, hre⟩ := hv raw (List.mem_cons_self _ _)
    have hne : ¬((acc ++ [re]).length = cap) := by
      simp only [List.length_append, List.length_cons, List.length_nil] at hlen ⊢
      omega
    have hstep : whoisLoop p cap ((raw :: good) ++ rest) acc
        = whoisLoop p cap (good ++ rest) (acc ++ [re]) := by
      simp only [List.cons_append, whoisLoop, hs, hre, Bool.false_eq_true, if_false,
        if_neg hne]
      rfl
    have htail := ih rest (acc ++ [re])
      (fun l hl => hv l (List.mem_cons_of_mem _ hl))
      (by simp only [List.length_append, List.length_cons, List.length_nil] at hlen ⊢; omega)
    rw [hstep, htail]
    have hmap : (p raw).toOption.getD zeroResponse = re := by rw [hre]; rfl
    simp [hmap, List.append_assoc]

/-- A structurally valid address-mode session line used in witnesses. -/
def ipLineA : String := "15169 | 8.8.8.8 | 8.8.8.0/24 | US | arin | 2000-03-30 | GOOGLE"

/-- Another structurally valid address-mode session line. -/
def ipLineB : String := "3356 | 4.2.2.2 | 4.0.0.0/9 | US | arin | 1992-12-01 | LEVEL3"

/-- A structurally valid ASN-mode session line. -/
def asnLineA : String := "15169 | US | arin | 2000-03-30 | GOOGLE"

/-- C5: for every session-resolver batch of `n` inputs whose line source is
exhausted (connection closed) after fewer than `n` structurally valid response
lines, the batch returns exactly the records parsed so far and no error — in
address mode and in ASN mode. -/
theorem c5_early_close (cc : CC) (n m : Nat) (lines alines : List String) :
    ((∀ l ∈ lines, validIPLine l = true) → lines.length < n →
      whoisLookupIPs cc n lines = (lines.map (okIPRecord cc), none))
    ∧ ((∀ l ∈ alines, validASNLine l = true) → alines.length < m →
      whoisLookupASNs cc m alines = (alines.map (okASNRecord cc), none)) := by
  constructor
  · intro hv hlen
    unfold whoisLookupIPs
    have h := whoisLoop_consume (whoisParseIPLine cc) n lines [] []
      (fun l hl => validIPLine_split cc l (hv l hl)) (by simpa using hlen)
    simpa [whoisLoop, okIPRecord] using h
  · intro hv hlen
    unfold whoisLookupASNs
    have h := whoisLoop_consume (whoisParseASNLine cc) m alines [] []
      (fun l hl => validASNLine_split cc l (hv l hl)) (by simpa using hlen)
    simpa [whoisLoop, okASNRecord] using h

/-- Witness for C5: a batch of 3 addresses whose line source closes after 2
valid lines returns exactly those 2 records and no error; similarly one valid
ASN line for a 2-ASN batch. -/
theorem c5_witness :
    whoisLookupIPs cc0 3 [ipLineA, ipLineB]
      = ([okIPRecord cc0 ipLineA, okIPRecord cc0 ipLineB], none)
    ∧ whoisLookupASNs cc0 2 [asnLineA] = ([okASNRecord cc0 asnLineA], none) := by
  constructor
  · exact (c5_early_close cc0 3 2 [ipLineA, ipLineB] [asnLineA]).1 (by decide) (by decide)
  · exact (c5_early_close cc0 3 2 [ipLineA, ipLineB] [asnLineA]).2 (by decide) (by decide)

/-- C3 counterexample: the claim says the error message equals the remainder of
the line after the `Error: ` marker, trimmed — but the code uses a cut-set trim
(`bytes.TrimLeft`), so `Error: rate limit` yields the message `ate limit`, not
`rate limit`. -/
theorem c3_counterexample :
    whoisLookupIPs cc0 1 ["Error: rate limit"]
      = ([], some (WhoisErr.upstream "ate limit"))
    ∧ "ate limit" ≠ "rate limit" := ⟨rfl, by decide⟩

/-- C3 amended: a response line beginning with `Error: ` aborts the batch at
once, returning the records parsed so far plus an upstream error whose message
is the line with all leading characters drawn from the marker's character set
stripped and then trimmed of white space (this equals the remainder after the
marker whenever the message does not itself begin with one of `E r o : space`,
as in `Error: no match` -> `no match`). -/
theorem c3_amended (cc : CC) (n m : Nat) (good agood : List String) (raw araw : String)
    (rest arest : List String) :
    ((∀ l ∈ good, validIPLine l = true) → good.length < n →
      goStartsWith raw errMarker = true →
      whoisLookupIPs cc n (good ++ raw :: rest)
        = (good.map (okIPRecord cc),
           some (WhoisErr.upstream (goTrim (goTrimLeft raw errMarker)))))
    ∧ ((∀ l ∈ agood, validASNLine l = true) → agood.length < m →
      goStartsWith araw errMarker = true →
      whoisLookupASNs cc m (agood ++ araw :: arest)
        = (agood.map (okASNRecord cc),
           some (WhoisErr.upstream (goTrim (goTrimLeft araw errMarker))))) := by
  constructor
  · intro hv hlen he
    unfold whoisLookupIPs
    rw [whoisLoop_consume (whoisParseIPLine cc) n good (raw :: rest) []
      (fun l hl => validIPLine_split cc l (hv l hl)) (by simpa using hlen)]
    simp [whoisLoop, he, okIPRecord]
  · intro hv hlen he
    unfold whoisLookupASNs
    rw [whoisLoop_consume (whoisParseASNLine cc) m agood (araw :: arest) []
      (fun l hl => validASNLine_split cc l (hv l hl)) (by simpa using hlen)]
    simp [whoisLoop, he, okASNRecord]

/-- Witness for C3: the line `Error: no match` after one valid record yields
exactly that record plus the error message `no match`. -/
theorem c3_witness :
    whoisLookupIPs cc0 2 [ipLineA, "Error: no match"]
      = ([okIPRecord cc0 ipLineA], some (WhoisErr.upstream "no match")) := by
  exact (c3_amended cc0 2 1 [ipLineA] [] "Error: no match" "Error: x" [] []).1
    (by decide) (by decide) (by decide)

/-- C1 evaluated at the failing input: with an immediately closed line source
the batch returns zero records and no error; `whoisClient.LookupIP` checks for
the empty result and returns safely, but `whoisClient.LookupASN` takes
`&resp[0]` unconditionally and faults (modelled by `none`). -/
theorem c1_eval : whoisLookupASN ccNone [] = none
    ∧ whoisLookupIP ccNone [] = (none, none) := ⟨rfl, rfl⟩

/-- The outcome shape of an address-mode line parse does not depend on the
country collaborator: its error cases (token count, asn, CIDR) come first. -/
theorem whoisParseIPLine_cc_cases (cc cc2 : CC) (raw : String) :
    (∃ e, whoisParseIPLine cc raw = Except.error e
      ∧ whoisParseIPLine cc2 raw = Except.error e)
    ∨ (∃ r1 r2, whoisParseIPLine cc raw = Except.ok r1
      ∧ whoisParseIPLine cc2 raw = Except.ok r2) := by
  unfold whoisParseIPLine
  by_cases h7 : (goSplit raw '|').length ≠ 7
  · rw [if_pos h7, if_pos h7]
    exact Or.inl ⟨_, rfl, rfl⟩
  · rw [if_neg h7, if_neg h7]
    cases ha : atoi (lineTok raw 0) with
    | none => exact Or.inl ⟨_, rfl, rfl⟩
    | some a =>
      cases hc : parseCIDR (lineTok raw 2) with
      | none => exact Or.inl ⟨_, rfl, rfl⟩
      | some rg => exact Or.inr ⟨_, _, rfl, rfl⟩

/-- Same for ASN-mode lines. -/
theorem whoisParseASNLine_cc_cases (cc cc2 : CC) (raw : String) :
    (∃ e, whoisParseASNLine cc raw = Except.error e
      ∧ whoisParseASNLine cc2 raw = Except.error e)
    ∨ (∃ r1 r2, whoisParseASNLine cc raw = Except.ok r1
      ∧ whoisParseASNLine cc2 raw = Except.ok r2) := by
  unfold whoisParseASNLine
  by_cases h5 : (goSplit raw '|').length ≠ 5
  · rw [if_pos h5, if_pos h5]
    exact Or.inl ⟨_, rfl, rfl⟩
  · rw [if_neg h5, if_neg h5]
    cases ha : atoi (lineTok raw 0) with
    | none => exact Or.inl ⟨_, rfl, rfl⟩
    | some a => exact Or.inr ⟨_, _, rfl, rfl⟩

/-- Two line parsers that fail identically and succeed together drive the read
loop in lockstep: same record count and same error, for any batch. -/
theorem whoisLoop_lockstep (p q : String → Except WhoisErr Response)
    (hpq : ∀ raw, (∃ e, p raw = Except.error e ∧ q raw = Except.error e)
        ∨ (∃ r1 r2, p raw = Except.ok r1 ∧ q raw = Except.ok r2))
    (cap : Nat) (lines : List String) :
    ∀ (acc acc2 : List Response), acc.length = acc2.length →
      (whoisLoop p cap lines acc).1.length = (whoisLoop q cap lines acc2).1.length
      ∧ (whoisLoop p cap lines acc).2 = (whoisLoop q cap lines acc2).2 := by
  induction lines with
  | nil =>
    intro acc acc2 h
    simpa [whoisLoop] using h
  | cons raw rest ih =>
    intro acc acc2 h
    by_cases hs : goStartsWith raw errMarker = true
    · simp [whoisLoop, hs, h]
    · replace hs : goStartsWith raw errMarker = false := by simpa using hs
      rcases hpq raw with ⟨e, hp, hq⟩ | ⟨r1, r2, hp, hq⟩
      · simp [whoisLoop, hs, hp, hq, h]
      · have hlen2 : (acc ++ [r1]).length = (acc2 ++ [r2]).length := by simp [h]
        by_cases hcap : (acc ++ [r1]).length = cap
        · have hcap2 : (acc2 ++ [r2]).length = cap := by rw [← hlen2]; exact hcap
          simp [whoisLoop, hs, hp, hq, hcap, hcap2, h]
        · have hcap2 : ¬((acc2 ++ [r2]).length = cap) := fun hx => hcap (by rw [hlen2]; exact hx)
          simp only [whoisLoop, hs, hp, hq, Bool.false_eq_true, if_false,
            if_neg hcap, if_neg hcap2]
          exact ih _ _ hlen2

/-- C10: a failure of the country collaborator never aborts a session batch in
either mode — the record count and the returned error are the same under every
collaborator — and a line whose country code fails to resolve still parses to a
record carrying the zero (default) country. -/
theorem c10_country_blind (cc cc2 : CC) (n : Nat) (lines : List String) (raw : String) :
    ((whoisLookupIPs cc n lines).1.length = (whoisLookupIPs cc2 n lines).1.length
      ∧ (whoisLookupIPs cc n lines).2 = (whoisLookupIPs cc2 n lines).2)
    ∧ ((whoisLookupASNs cc n lines).1.length = (whoisLookupASNs cc2 n lines).1.length
      ∧ (whoisLookupASNs cc n lines).2 = (whoisLookupASNs cc2 n lines).2)
    ∧ (cc (lineTok raw 3) = none → ∀ re, whoisParseIPLine cc raw = Except.ok re →
        re.country = defaultCountry)
    ∧ (cc (lineTok raw 1) = none → ∀ re, whoisParseASNLine cc raw = Except.ok re →
        re.country = defaultCountry) := by
  refine ⟨?_, ?_, ?_, ?_⟩
  · exact whoisLoop_lockstep (whoisParseIPLine cc) (whoisParseIPLine cc2)
      (whoisParseIPLine_cc_cases cc cc2) n lines [] [] rfl
  · exact whoisLoop_lockstep (whoisParseASNLine cc) (whoisParseASNLine cc2)
      (whoisParseASNLine_cc_cases cc cc2) n lines [] [] rfl
  · intro hnone re
    unfold whoisParseIPLine
    by_cases h7 : (goSplit raw '|').length ≠ 7
    · rw [if_pos h7]; intro hre; cases hre
    · rw [if_neg h7]
      cases ha : atoi (lineTok raw 0) with
      | none => intro hre; cases hre
      | some a =>
        cases hc : parseCIDR (lineTok raw 2) with
        | none => intro hre; cases hre
        | some rg =>
          intro hre
          injection hre with h4
          rw [← h4]
          simp [hnone]
  · intro hnone re
    unfold whoisParseASNLine
    by_cases h5 : (goSplit raw '|').length ≠ 5
    · rw [if_pos h5]; intro hre; cases hre
    · rw [if_neg h5]
      cases ha : atoi (lineTok raw 0) with
      | none => intro hre; cases hre
      | some a =>
        intro hre
        injection hre with h4
        rw [← h4]
        simp [hnone]

/-- Witness for C10: with a collaborator that fails on every code, a one-line
batch still returns one record and no error (same shape as under `cc0`), and
the parsed record carries the default country. -/
theorem c10_witness :
    (whoisLookupIPs ccNone 1 [ipLineA]).1.length
      = (whoisLookupIPs cc0 1 [ipLineA]).1.length
    ∧ (okIPRecord ccNone ipLineA).country = defaultCountry := by
  constructor
  · exact (c10_country_blind ccNone cc0 1 [ipLineA] ipLineA).1.1
  · exact (c10_country_blind ccNone cc0 1 [ipLineA] ipLineA).2.2.1 rfl
      (okIPRecord ccNone ipLineA) (by rfl)

theorem parseDate_empty : parseDate "" = none := rfl

/-- The explicit record form of a structurally valid address-mode line parse. -/
theorem whoisParseIPLine_ok_eq (cc : CC) (raw : String) (h : parsesIPLine raw = true) :
    whoisParseIPLine cc raw = Except.ok
      { asn := (atoi (lineTok raw 0)).getD 0, ip := parseIP (lineTok raw 1),
        range := parseCIDR (lineTok raw 2),
        country := (cc (lineTok raw 3)).getD defaultCountry,
        registry := lineTok raw 4, allocated := parseDate (lineTok raw 5),
        name := NewName (lineTok raw 6) } := by
  unfold parsesIPLine at h
  simp only [Bool.and_eq_true, beq_iff_eq] at h
  obtain ⟨⟨h7, hasn⟩, hcidr⟩ := h
  rw [Option.isSome_iff_exists] at hasn hcidr
  obtain ⟨a, ha⟩ := hasn
  obtain ⟨rg, hrg⟩ := hcidr
  unfold whoisParseIPLine
  rw [if_neg (by omega), ha, hrg]
  rfl

/-- C7 counterexample: the same upstream ASN-mode text (asn token `xx`) makes
the session parser abort with a parse error while the directory parser — which
ignores the asn token entirely — yields a record; the claim that both resolvers
produce the same outcome on identical text is false. -/
theorem c7_counterexample :
    whoisParseASNLine cc0 "xx|US|arin||EXAMPLE" = Except.error (WhoisErr.asnParse "xx")
    ∧ dnsASNFromTxts cc0 5 ["xx|US|arin||EXAMPLE"]
      = Except.ok { asn := 5, ip := none, range := none, country := usCountry,
                    registry := "arin", allocated := none, name := "EXAMPLE" } :=
  ⟨rfl, rfl⟩

/-- C7 amended: on ASN-mode text whose asn token parses to the queried ASN,
whose country code resolves, and whose date token is empty or well formed, the
session parser and the directory parser produce the SAME record; outside this
common domain they diverge (the session parser is strict on the asn token and
lenient on country and date, the directory parser ignores the asn token and is
strict on country and on a non-empty date). -/
theorem c7_amended (cc : CC) (raw : String) (a : Int)
    (h5 : (goSplit raw '|').length = 5)
    (ha : atoi (lineTok raw 0) = some a)
    (hc : (cc (lineTok raw 1)).isSome = true)
    (hd : lineTok raw 3 = "" ∨ (parseDate (lineTok raw 3)).isSome = true) :
    ∃ re, whoisParseASNLine cc raw = Except.ok re
      ∧ dnsASNFromTxts cc a [raw] = Except.ok re := by
  obtain ⟨c, hcc⟩ := Option.isSome_iff_exists.mp hc
  rcases hd with hd | hd
  · refine ⟨{ asn := a, ip := none, range := none, country := c,
              registry := lineTok raw 2, allocated := none,
              name := NewName (lineTok raw 4) }, ?_, ?_⟩
    · unfold whoisParseASNLine
      rw [if_neg (by omega), ha, hcc, hd, parseDate_empty]
      rfl
    · simp only [dnsASNFromTxts]
      rw [if_neg (by omega), hd]
      simp only [hcc]
      rfl
  · obtain ⟨d, hdd⟩ := Option.isSome_iff_exists.mp hd
    have hne : lineTok raw 3 ≠ "" := by
      intro h0
      rw [h0, parseDate_empty] at hdd
      cases hdd
    refine ⟨{ asn := a, ip := none, range := none, country := c,
              registry := lineTok raw 2, allocated := some d,
              name := NewName (lineTok raw 4) }, ?_, ?_⟩
    · unfold whoisParseASNLine
      rw [if_neg (by omega), ha, hcc, hdd]
      rfl
    · simp only [dnsASNFromTxts]
      rw [if_neg (by omega)]
      simp only [hcc]
      rw [if_pos hne, hdd]

/-- Witness for C7: a well-formed ASN-mode line on which both resolvers yield
the identical record. -/
theorem c7_witness :
    whoisParseASNLine cc0 asnLineA
      = Except.ok { asn := 15169, ip := none, range := none, country := usCountry,
                    registry := "arin", allocated := some "2000-03-30",
                    name := "GOOGLE" }
    ∧ dnsASNFromTxts cc0 15169 [asnLineA]
      = Except.ok { asn := 15169, ip := none, range := none, country := usCountry,
                    registry := "arin", allocated := some "2000-03-30",
                    name := "GOOGLE" } := by
  obtain ⟨re, h1, h2⟩ := c7_amended cc0 asnLineA 15169 rfl rfl rfl (Or.inr rfl)
  have h3 : Except.ok (ε := WhoisErr) re
      = Except.ok { asn := 15169, ip := none, range := none, country := usCountry,
                    registry := "arin", allocated := some "2000-03-30",
                    name := ("GOOGLE" : String) } := by rw [← h1]; rfl
  injection h3 with h4
  rw [h4] at h1 h2
  exact ⟨h1, h2⟩

/-- C8 counterexample: on the directory resolver a malformed non-empty date
token DOES fail the lookup — the same text that the session parser accepts
(producing a record with the date absent). -/
theorem c8_counterexample :
    dnsASNFromTxts cc0 7 ["7|US|arin|baddate|X"]
      = Except.error (DnsErr.dateParse "baddate")
    ∧ whoisParseASNLine cc0 "7|US|arin|baddate|X"
      = Except.ok { asn := 7, ip := none, range := none, country := usCountry,
                    registry := "arin", allocated := none, name := "X" } :=
  ⟨rfl, rfl⟩

/-- C8 amended: on the SESSION resolver an empty or malformed date never fails —
a structurally valid line (7 tokens, parsable asn and CIDR) always produces a
record whose allocation date is simply the lenient parse of the date token — and
only the asn and range tokens are strict.  On the DIRECTORY resolver an empty
date token is tolerated (record with date absent), but a malformed non-empty
date token aborts the lookup with a date parse error. -/
theorem c8_amended (cc : CC) (a : Int) (raw : String) :
    (parsesIPLine raw = true →
      whoisParseIPLine cc raw = Except.ok
        { asn := (atoi (lineTok raw 0)).getD 0, ip := parseIP (lineTok raw 1),
          range := parseCIDR (lineTok raw 2),
          country := (cc (lineTok raw 3)).getD defaultCountry,
          registry := lineTok raw 4, allocated := parseDate (lineTok raw 5),
          name := NewName (lineTok raw 6) })
    ∧ ((goSplit raw '|').length = 5 → (cc (lineTok raw 1)).isSome = true →
        lineTok raw 3 = "" →
        ∃ re, dnsASNFromTxts cc a [raw] = Except.ok re ∧ re.allocated = none)
    ∧ ((goSplit raw '|').length = 5 → (cc (lineTok raw 1)).isSome = true →
        lineTok raw 3 ≠ "" → parseDate (lineTok raw 3) = none →
        dnsASNFromTxts cc a [raw] = Except.error (DnsErr.dateParse (lineTok raw 3))) := by
  refine ⟨fun h => whoisParseIPLine_ok_eq cc raw h, ?_, ?_⟩
  · intro h5 hc hemp
    obtain ⟨c, hcc⟩ := Option.isSome_iff_exists.mp hc
    refine ⟨{ asn := a, ip := none, range := none, country := c,
              registry := lineTok raw 2, allocated := none,
              name := NewName (lineTok raw 4) }, ?_, rfl⟩
    simp only [dnsASNFromTxts]
    rw [if_neg (by omega), hemp]
    simp only [hcc]
    rfl
  · intro h5 hc hne hbad
    obtain ⟨c, hcc⟩ := Option.isSome_iff_exists.mp hc
    simp only [dnsASNFromTxts]
    rw [if_neg (by omega)]
    simp only [hcc]
    rw [if_pos hne, hbad]

/-- Witness for C8: a malformed date (`baddate`) aborts the directory lookup;
an address-mode session line with an EMPTY date token still parses, with the
allocation date absent. -/
theorem c8_witness :
    dnsASNFromTxts cc0 9 ["9|US|arin|baddate|Y"]
      = Except.error (DnsErr.dateParse "baddate")
    ∧ whoisParseIPLine cc0 "15169 | 8.8.8.8 | 8.8.8.0/24 | US | arin |  | GOOGLE"
      = Except.ok { asn := 15169,
                    ip := some [0, 0, 0, 0, 0, 0, 0, 0, 0, 0, 255, 255, 8, 8, 8, 8],
                    range := some "8.8.8.0/24", country := usCountry,
                    registry := "arin", allocated := none, name := "GOOGLE" } := by
  constructor
  · exact (c8_amended cc0 9 "9|US|arin|baddate|Y").2.2 rfl rfl (by decide) rfl
  · exact (c8_amended cc0 9 "15169 | 8.8.8.8 | 8.8.8.0/24 | US | arin |  | GOOGLE").1
      (by decide)

theorem or_shiftRight_distrib (x y k : Nat) :
    (x ||| y) >>> k = (x >>> k) ||| (y >>> k) := by
  apply Nat.eq_of_testBit_eq
  intro i
  simp

theorem and_fifteen (x : Nat) : x &&& 15 = x % 16 := by
  have h := Nat.and_pow_two_sub_one_eq_mod x 4
  norm_num at h
  exact h

/-- The value of one emitted nibble of the IPv6 encoding loop: nibble `j` of the
word `(b2 << 8) | b3` is digit `j` of `b2 * 256 + b3` in base 16. -/
theorem nibble_eq (b2 b3 j : Nat) (hb3 : b3 < 256) (hj : j ≤ 3) :
    (((b2 <<< 8) ||| b3) >>> (4 * j)) &&& 15 = (b2 * 256 + b3) / 16 ^ j % 16 := by
  rw [or_shiftRight_distrib, Nat.and_distrib_right, and_fifteen, and_fifteen,
    Nat.shiftLeft_eq, Nat.shiftRight_eq_div_pow, Nat.shiftRight_eq_div_pow]
  interval_cases j <;> norm_num
  · have e1 : b2 * 256 % 16 = 0 := by omega
    rw [e1, Nat.zero_or]
    omega
  · have e1 : b2 * 256 / 16 % 16 = 0 := by omega
    rw [e1, Nat.zero_or]
    omega
  · have e2 : b3 / 256 % 16 = 0 := by omega
    rw [e2, Nat.or_zero]
    omega
  · have e2 : b3 / 4096 % 16 = 0 := by omega
    rw [e2, Nat.or_zero]
    omega

/-- One word of the code's encoding equals one word of the spec's encoding. -/
theorem v6WordChunk_eq (b2 b3 : Nat) (hb3 : b3 < 256) :
    v6WordChunk b2 b3 = specWordChunk (b2 * 256 + b3) := by
  unfold v6WordChunk specWordChunk
  rw [show List.range 4 = [0, 1, 2, 3] from rfl]
  simp only [List.map_cons, List.map_nil]
  rw [nibble_eq b2 b3 0 hb3 (by omega), nibble_eq b2 b3 1 hb3 (by omega),
    nibble_eq b2 b3 2 hb3 (by omega), nibble_eq b2 b3 3 hb3 (by omega)]
  norm_num

theorem getD_lt (ip : List Nat) (hb : ∀ b ∈ ip, b < 256) (i : Nat)
    (hi : i < ip.length) : ip.getD i 0 < 256 := by
  rw [List.getD_eq_getElem?_getD, List.getElem?_eq_getElem hi, Option.getD_some]
  exact hb _ (List.getElem_mem hi)

/-- The 64 characters built by the code's loop are the concatenation of the
spec's eight word chunks. -/
theorem v6Bytes_eq (ip : List Nat) (hlen : ip.length = 16) (hb : ∀ b ∈ ip, b < 256) :
    v6Bytes ip = (((List.range 8).map (fun k =>
      (ip.getD (14 - 2 * k) 0) * 256 + ip.getD (15 - 2 * k) 0)).map specWordChunk).flatten := by
  unfold v6Bytes
  rw [List.map_map]
  congr 1
  apply List.map_congr_left
  intro k hk
  have hk8 : k < 8 := List.mem_range.mp hk
  exact v6WordChunk_eq _ _ (getD_lt ip hb (15 - 2 * k) (by omega))

theorem specWordChunk_length (w : Nat) : (specWordChunk w).length = 8 := rfl

/-- C9 counterexample: an IPv4-mapped 16-byte address is NOT encoded by the
16-byte word rule — the code's `To4` test sends it through the 4-byte branch,
yielding the IPv4 origin name. -/
theorem c9_counterexample :
    getLookupName mapped16 = some ("1.2.0.192.origin.asn.cymru.com", none)
    ∧ "1.2.0.192.origin.asn.cymru.com" ≠ specV6Name mapped16 := ⟨rfl, by decide⟩

/-- C9 amended: for every 16-byte address that is not in IPv4-mapped form, the
encoder emits exactly the spec's word-by-word nibble encoding: eight 16-bit
words from the least-significant word (final two bytes) to the most-significant
word (first two bytes), each word as four hex nibbles least-significant first,
dot separated, the single trailing separator dropped, then the v6 zone suffix —
with no extraneous leading or trailing dot. -/
theorem c9_amended (ip : List Nat) (hlen : ip.length = 16) (hb : ∀ b ∈ ip, b < 256)
    (hnot4 : (to4 ip).length ≠ 4) :
    getLookupName ip = some (specV6Name ip, none) := by
  unfold getLookupName specV6Name
  rw [if_neg hnot4, if_neg (by omega)]
  rw [v6Bytes_eq ip hlen hb]
  have hxlen : ((((List.range 8).map (fun k =>
      (ip.getD (14 - 2 * k) 0) * 256 + ip.getD (15 - 2 * k) 0)).map
        specWordChunk)).flatten.length = 64 := by
    rw [List.length_flatten, List.map_map]
    rw [show List.range 8 = [0, 1, 2, 3, 4, 5, 6, 7] from rfl]
    simp [Function.comp, specWordChunk_length]
  rw [List.dropLast_eq_take, hxlen]

/-- Witness for C9: the all-zero 16-byte address (not IPv4-mapped) yields
exactly 32 dot-separated `0` nibbles followed by the v6 zone suffix. -/
theorem c9_witness :
    getLookupName zero16 = some (specV6Name zero16, none)
    ∧ specV6Name zero16
      = "0.0.0.0.0.0.0.0.0.0.0.0.0.0.0.0.0.0.0.0.0.0.0.0.0.0.0.0.0.0.0.0.origin6.asn.cymru.com" := by
  constructor
  · exact c9_amended zero16 (by decide) (by decide) (by decide)
  · rfl

/-- A DNS oracle for the C2 evaluation: well-formed answers for the ASN zone of
AS7 and for the origin plus chained zones of 192.0.2.1. -/
def oracleBatch : TxtOracle := fun dnsName =>
  if dnsName = "7.asn.cymru.com" then
    .ok ["7 | US | arin | 2001-01-02 | EXAMPLE-AS"]
  else if dnsName = "1.2.0.192.origin.asn.cymru.com" then
    .ok ["15169 | 1.2.0.0/16 | US | arin | 2001-01-02"]
  else if dnsName = "15169.asn.cymru.com" then
    .ok ["15169 | US | arin | 2001-01-02 | EXAMPLE"]
  else .error "no such host"

/-- C2 evaluated at the failing input: a fully successful one-element batch on
the directory resolver returns TWO records — a zero record left over from
`make([]Response, len(input))` followed by the real one — instead of exactly one
record per input (both for `LookupASNs` and for `LookupIPs`). -/
theorem c2_eval :
    dnsLookupASNs cc0 oracleBatch [7]
      = ([zeroResponse,
          { asn := 7, ip := none, range := none, country := usCountry,
            registry := "arin", allocated := some "2001-01-02",
            name := "EXAMPLE-AS" }], none)
    ∧ dnsLookupIPs cc0 oracleBatch [mapped16]
      = some ([zeroResponse,
               { asn := 15169, ip := some mapped16, range := some "1.2.0.0/16",
                 country := usCountry, registry := "arin",
                 allocated := some "2001-01-02", name := "EXAMPLE" }], none)
    ∧ (2 : Nat) ≠ 1 := ⟨rfl, rfl, by decide⟩

/-- C4 evaluated at the failing input: on a literal 4-byte address the encoder
faults (it reads `ip[15]..ip[12]` of the original 4-byte slice after checking
only `To4`), while the SAME address in its 16-byte `net.ParseIP` form produces
the expected reversed name. -/
theorem c4_eval :
    getLookupName [192, 0, 2, 1] = none
    ∧ parseIP "192.0.2.1" = some mapped16
    ∧ getLookupName mapped16 = some ("1.2.0.192.origin.asn.cymru.com", none) :=
  ⟨rfl, rfl, rfl⟩

/-- A DNS oracle for the C6 evaluation: it answers the EMPTY name (the value
`getLookupName` returns alongside its length error) with a well-formed record. -/
def oracleEmptyName : TxtOracle := fun dnsName =>
  if dnsName = "" then .ok ["99 | 9.9.0.0/16 | US | arin |"]
  else if dnsName = "99.asn.cymru.com" then .ok ["99 | US | arin | | NINE"]
  else .error "no such host"

/-- C6 evaluated at the failing input: for a 5-byte address `getLookupName`
does report a length error, but `dnsClient.LookupIP` discards it (the `err`
variable is immediately overwritten by the `net.LookupTXT` call) and issues a
TXT query for the empty name — with an oracle answering that name the lookup
even returns a record instead of any length error. -/
theorem c6_eval :
    getLookupName [1, 2, 3, 4, 5] = some ("", some (NameErr.invalidLength 5))
    ∧ dnsLookupIP cc0 oracleEmptyName [1, 2, 3, 4, 5]
      = some (Except.ok
          { asn := 99, ip := some [1, 2, 3, 4, 5], range := some "9.9.0.0/16",
            country := usCountry, registry := "arin", allocated := none,
            name := "NINE" }) := ⟨rfl, rfl⟩
